import Mathlib

/-! # Application layer of the BLE dimmer (`application.c`)

A shallow embedding of `application.c`.  The file owns one piece of mutable
state, the `adv_timeout` flag; everything else it does is a call to a
collaborator (BLE manager, persistent memory, LED strip) or a hardware
effect (retention register write, system reset).  Each exported C function
becomes a Lean function from the state before the call to the state after it
together with the list of effects it performed, in program order.

Bytes (`uint8_t`) are natural numbers below 256; narrowing assignments carry
an explicit `% 256`.  Array reads return `Option`, so that an out-of-bounds
read (undefined behaviour in C) makes the whole operation `none`.
-/

namespace Application

/-! ## Data model -/

/-- Observable effects of the exported functions: the collaborator calls with
their arguments (and, for the two storage calls, the value they returned), the
write to `NRF_POWER->GPREGRET`, and the system reset. -/
inductive Effect where
  | ble_man_init
  | memory_init (seed : List Nat) (ret : Bool)
  | memory_is_busy (ret : Bool)
  | led_light_init
  | ble_man_adv_start
  | ble_man_scan_start
  | led_update_light (red green blue white : Nat)
  | gpregret_write (value : Nat)
  | NVIC_SystemReset
  deriving DecidableEq, Repr

/-- The mutable state of the file: `static volatile bool adv_timeout`. -/
structure AppState where
  adv_timeout : Bool
  deriving DecidableEq, Repr

/-- Initial state: `adv_timeout = false`. -/
def AppState.initial : AppState := { adv_timeout := false }

/-! ## Constants and tables -/

/-- The password `#define DFU_UPGRADE_CHAR_PASSWORD 0xA9`. -/
def DFU_UPGRADE_CHAR_PASSWORD : Nat := 0xA9

/-- The default fade percentage `#define DEF_FADE_PWM_PERCENT 10`. -/
def DEF_FADE_PWM_PERCENT : Nat := 10

/-- The number of table rows `#define NUM_OF_PWM_VALUES_GROUPS 12`. -/
def NUM_OF_PWM_VALUES_GROUPS : Nat := 12

/-- Modelled from the spec: `MEM_BUFFER_DATA_LENGTH` is declared in `memory.h`,
which is not among the sources; the spec gives the record layout as 8 bytes. -/
def MEM_BUFFER_DATA_LENGTH : Nat := 8

/-- The array `default_values[MEM_BUFFER_DATA_LENGTH]`: the eight initialisers of
the source, any remaining element being zero-initialised. -/
def default_values : List Nat :=
  [DEF_FADE_PWM_PERCENT, 0xFF, 0xFF, 0xFF, 0xFF, 0xFF, 0xFF, 0xFF]
    ++ List.replicate (MEM_BUFFER_DATA_LENGTH - 8) 0

/-- The table `pwm_values[NUM_OF_PWM_VALUES_GROUPS][4]` (the live initialiser;
the older table is commented out in the source). -/
def pwm_values : List (List Nat) :=
  [ [ 10,  10,  10,  10],   -- good night
    [ 25,  25,  25,  25],   -- low
    [  0,   0,   0,   0],
    [  0,   0,   0,   0],
    [ 50,  50,  50,  50],   -- mid-low
    [ 75,  75,  75,  75],   -- mid-high
    [  0,   0,   0,   0],
    [  0,   0,   0,   0],
    [100, 100, 100, 100],   -- high
    [  0,   0,   0,   0],   -- OFF
    [  0,   0,   0,   0],
    [  0,   0,   0,   0] ]

/-- The array read `pwm_values[i][k]`; `none` when either index is out of
bounds. -/
def pwm_at (i k : Nat) : Option Nat :=
  match pwm_values[i]? with
  | some row => row[k]?
  | none => none

/-! ## Exported functions -/

/-- The function `void app_on_adv_timeout(void)`: sets the flag. -/
def app_on_adv_timeout (_s : AppState) : AppState × List Effect :=
  ({ adv_timeout := true }, [])

/-- The function `void app_on_special_op(uint8_t special_op_byte)`.  The sentinel
`BOOTLOADER_DFU_START` comes from `bootloader.h`, which is not among the
sources, so it is a parameter. -/
def app_on_special_op (BOOTLOADER_DFU_START : Nat) (special_op_byte : Nat)
    (s : AppState) : AppState × List Effect :=
  if special_op_byte = DFU_UPGRADE_CHAR_PASSWORD then
    -- SET_REG_VALUE_TO_START_BOOTLOADER(); NVIC_SystemReset();
    (s, [Effect.gpregret_write BOOTLOADER_DFU_START, Effect.NVIC_SystemReset])
  else
    (s, [])

/-- The function `void application_on_new_scan(uint8_t new_adv_data)`. -/
def application_on_new_scan (new_adv_data : Nat) (s : AppState) :
    Option (AppState × List Effect) :=
  if 0x10 = (new_adv_data &&& 0xF0) then
    let pwm_index := (new_adv_data &&& 0x0F) % 256
    if pwm_index < NUM_OF_PWM_VALUES_GROUPS then
      match pwm_at pwm_index 0, pwm_at pwm_index 1,
            pwm_at pwm_index 2, pwm_at pwm_index 3 with
      | some r, some g, some b, some w =>
          some (s, [Effect.led_update_light r g b w])
      | _, _, _, _ => none
    else
      some (s, [])
  else
    some (s, [])

/-- The function `void application_on_conn(void)`: empty body. -/
def application_on_conn (s : AppState) : AppState × List Effect :=
  (s, [])

/-- The function `void application_on_disconn(void)`. -/
def application_on_disconn (s : AppState) : AppState × List Effect :=
  (s, [Effect.ble_man_adv_start])

/-- The loop `while(false != memory_is_busy());`.  `busy k` is the answer the
storage collaborator gives to poll number `k` (counted from 0), `k` is the
number of polls already made, and `fuel` bounds the number of polls still
allowed.  Returns the polls made, or `none` when the fuel runs out. -/
def wait_not_busy (busy : Nat → Bool) (k : Nat) : Nat → Option (List Effect)
  | 0 => none
  | fuel + 1 =>
    if busy k != false then
      (wait_not_busy busy (k + 1) fuel).map (fun t => Effect.memory_is_busy true :: t)
    else
      some [Effect.memory_is_busy false]

/-- The function `void application_init(void)`.  `mem_ok` is the value returned by
`memory_init(default_values)`, `busy` the answers of `memory_is_busy`, and
`fuel` bounds the busy-wait.  -/
def application_init (mem_ok : Bool) (busy : Nat → Bool) (fuel : Nat)
    (s : AppState) : Option (AppState × List Effect) :=
  let t0 := [Effect.ble_man_init, Effect.memory_init default_values mem_ok]
  let waited : Option (List Effect) :=
    if true = mem_ok then wait_not_busy busy 0 fuel else some []
  match waited with
  | none => none
  | some polls =>
    some (s, t0 ++ polls ++
      [Effect.led_light_init, Effect.ble_man_adv_start, Effect.ble_man_scan_start])

/-- The function `void application_run(void)`.  The calls `ble_man_scan_start()` and
`led_manage_light()` are commented out in the source, so the only action left
is clearing the flag. -/
def application_run (s : AppState) : AppState × List Effect :=
  if true = s.adv_timeout then
    ({ adv_timeout := false }, [])
  else
    (s, [])

/-! ## Trace observations -/

/-- Is the effect a `led_update_light` call? -/
def Effect.isLedUpdate : Effect → Bool
  | .led_update_light _ _ _ _ => true
  | _ => false

/-- Is the effect a `ble_man_scan_start` call? -/
def Effect.isScanStart : Effect → Bool
  | .ble_man_scan_start => true
  | _ => false

/-- Is the effect a `memory_is_busy` poll? -/
def Effect.isBusyPoll : Effect → Bool
  | .memory_is_busy _ => true
  | _ => false

/-- Is the effect one of the five initialisation/start calls of
`application_init`? -/
def Effect.isInitCall : Effect → Bool
  | .ble_man_init => true
  | .memory_init _ _ => true
  | .led_light_init => true
  | .ble_man_adv_start => true
  | .ble_man_scan_start => true
  | _ => false

/-! ## Definitions used to state the table and burst properties -/

/-- The reference table in the words of the specification: rows 0, 1, 4, 5 and 8
are the uniform presets 10, 25, 50, 75 and 100 percent, rows 2, 3, 6, 7, 9, 10
and 11 are all channels off, and there is no other row. -/
def reference_preset (i : Nat) : Option (List Nat) :=
  match i with
  | 0 => some [10, 10, 10, 10]
  | 1 => some [25, 25, 25, 25]
  | 4 => some [50, 50, 50, 50]
  | 5 => some [75, 75, 75, 75]
  | 8 => some [100, 100, 100, 100]
  | 2 | 3 | 6 | 7 | 9 | 10 | 11 => some [0, 0, 0, 0]
  | _ => none

/-- The six rows of `pwm_values` that carry a label in the source: good night,
low, mid-low, mid-high, high and OFF. -/
def ramp_indices : List Nat := [0, 1, 4, 5, 8, 9]

/-- The row indices of `pwm_values` that are not ramp indices. -/
def further_indices : List Nat :=
  (List.range NUM_OF_PWM_VALUES_GROUPS).filter (fun i => !ramp_indices.contains i)

/-- Does `application_on_new_scan b` make a `led_update_light` call? -/
def led_call_made (b : Nat) (s : AppState) : Bool :=
  match application_on_new_scan b s with
  | some r => r.2.any Effect.isLedUpdate
  | none => false

/-- The state after `n` consecutive calls of `app_on_adv_timeout`. -/
def adv_timeout_burst : Nat → AppState → AppState
  | 0, s => s
  | n + 1, s => (app_on_adv_timeout (adv_timeout_burst n s)).1

/-! ## Auxiliary lemmas -/

set_option maxRecDepth 100000 in
/-- A byte whose high nibble is `0x1` lies in `0x10 .. 0x1F`, and its low nibble
is the offset from `0x10`. -/
theorem high_nibble_one (b : Nat) (hb : b < 256) (hcat : b &&& 0xF0 = 0x10) :
    16 ≤ b ∧ b ≤ 31 ∧ b &&& 0x0F = b - 16 := by
  have key : ∀ c, c < 256 → c &&& 0xF0 = 0x10 → 16 ≤ c ∧ c ≤ 31 ∧ c &&& 0x0F = c - 16 := by
    decide
  exact key b hb hcat

/-- Every row index below 12 and every column index below 4 is inside the
table. -/
theorem pwm_at_isSome (i k : Nat) (hi : i < 12) (hk : k < 4) :
    ∃ v, pwm_at i k = some v := by
  interval_cases i <;> interval_cases k <;> exact ⟨_, rfl⟩

/-- On the valid-index branch `application_on_new_scan` issues the call built
from the four table reads. -/
theorem new_scan_valid_index (b : Nat) (s : AppState) (r g bl w : Nat)
    (hcat : b &&& 0xF0 = 0x10) (hidx : b &&& 0x0F < 12)
    (h0 : pwm_at (b &&& 0x0F) 0 = some r) (h1 : pwm_at (b &&& 0x0F) 1 = some g)
    (h2 : pwm_at (b &&& 0x0F) 2 = some bl) (h3 : pwm_at (b &&& 0x0F) 3 = some w) :
    application_on_new_scan b s = some (s, [Effect.led_update_light r g bl w]) := by
  have hmod : (b &&& 0x0F) % 256 = b &&& 0x0F := Nat.mod_eq_of_lt (by omega)
  unfold application_on_new_scan
  simp only [hcat, hmod, NUM_OF_PWM_VALUES_GROUPS, hidx, h0, h1, h2, h3, if_true]

/-- For every input `application_on_new_scan` returns: no table read is out of
bounds.  It keeps the state and performs at most one effect. -/
theorem new_scan_returns (x : Nat) (s : AppState) :
    ∃ r, application_on_new_scan x s = some r ∧ r.1 = s ∧ r.2.length ≤ 1 := by
  unfold application_on_new_scan
  by_cases hcat : 0x10 = x &&& 0xF0
  · by_cases hi : (x &&& 0x0F) % 256 < 12
    · obtain ⟨r0, h0⟩ := pwm_at_isSome _ 0 hi (by decide)
      obtain ⟨r1, h1⟩ := pwm_at_isSome _ 1 hi (by decide)
      obtain ⟨r2, h2⟩ := pwm_at_isSome _ 2 hi (by decide)
      obtain ⟨r3, h3⟩ := pwm_at_isSome _ 3 hi (by decide)
      simp only [hcat, NUM_OF_PWM_VALUES_GROUPS, hi, h0, h1, h2, h3, if_true]
      exact ⟨_, rfl, rfl, by simp⟩
    · simp only [hcat, NUM_OF_PWM_VALUES_GROUPS, hi, if_true, if_false]
      exact ⟨_, rfl, rfl, by simp⟩
  · simp only [hcat, if_false]
    exact ⟨_, rfl, rfl, by simp⟩

/-- The busy-wait, when the collaborator answers busy to the next `n` polls and
not busy to the one after: it finishes exactly when more than `n` polls are
allowed, having made `n + 1` polls. -/
theorem wait_not_busy_eq (busy : Nat → Bool) (n : Nat) :
    ∀ (k fuel : Nat), (∀ j, j < n → busy (k + j) = true) → busy (k + n) = false →
      wait_not_busy busy k fuel =
        if n < fuel then
          some (List.replicate n (Effect.memory_is_busy true) ++ [Effect.memory_is_busy false])
        else none := by
  induction n with
  | zero =>
    intro k fuel _ hfree
    cases fuel with
    | zero => simp [wait_not_busy]
    | succ f =>
      have hk : busy k = false := by simpa using hfree
      simp [wait_not_busy, hk]
  | succ n ih =>
    intro k fuel hbusy hfree
    cases fuel with
    | zero => simp [wait_not_busy]
    | succ f =>
      have hk : busy k = true := by simpa using hbusy 0 (Nat.succ_pos n)
      have hstep := ih (k + 1) f
        (fun j hj => by
          have := hbusy (j + 1) (Nat.succ_lt_succ hj)
          rwa [show k + (j + 1) = k + 1 + j by omega] at this)
        (by rwa [show k + (n + 1) = k + 1 + n by omega] at hfree)
      simp only [wait_not_busy, hk, hstep]
      by_cases hnf : n < f
      · simp [hnf, List.replicate_succ]
      · simp [hnf]

/-- Whatever the busy-wait returns consists of `memory_is_busy` polls only. -/
theorem wait_not_busy_polls (busy : Nat → Bool) :
    ∀ (fuel k : Nat) (polls : List Effect), wait_not_busy busy k fuel = some polls →
      ∀ e ∈ polls, e.isBusyPoll = true := by
  intro fuel
  induction fuel with
  | zero => intro k polls h; simp [wait_not_busy] at h
  | succ f ih =>
    intro k polls h e he
    unfold wait_not_busy at h
    by_cases hk : busy k = true
    · simp only [hk, bne_self_eq_false, Bool.true_bne, Bool.not_false, if_true,
        Option.map_eq_some'] at h
      obtain ⟨t, ht, rfl⟩ := h
      rcases List.mem_cons.mp he with rfl | he'
      · rfl
      · exact ih (k + 1) t ht e he'
    · have hk' : busy k = false := by simpa using hk
      simp only [hk', bne_self_eq_false, Bool.false_eq_true, if_false, Option.some.injEq] at h
      subst h
      rcases List.mem_singleton.mp he with rfl
      rfl

/-- A `memory_is_busy` poll is none of the five initialisation/start calls. -/
theorem isInitCall_of_isBusyPoll (e : Effect) (h : e.isBusyPoll = true) :
    e.isInitCall = false := by
  cases e <;> simp_all [Effect.isBusyPoll, Effect.isInitCall]

set_option maxRecDepth 100000 in
/-- Among bytes, high nibble `0x1` with low nibble at least 12 means exactly
`0x1C .. 0x1F`. -/
theorem out_of_range_bytes (b : Nat) (hb : b < 256) :
    (b &&& 0xF0 = 0x10 ∧ 12 ≤ b &&& 0x0F) ↔ (0x1C ≤ b ∧ b ≤ 0x1F) := by
  have key : ∀ c, c < 256 →
      ((c &&& 0xF0 = 0x10 ∧ 12 ≤ c &&& 0x0F) ↔ (0x1C ≤ c ∧ c ≤ 0x1F)) := by
    decide
  exact key b hb

/-- Every entry the table read can return is at most 100. -/
theorem pwm_at_le (i k v : Nat) (h : pwm_at i k = some v) : v ≤ 100 := by
  have hall : ∀ row ∈ pwm_values, ∀ w ∈ row, w ≤ 100 := by decide
  unfold pwm_at at h
  cases hrow : pwm_values[i]? with
  | none => simp [hrow] at h
  | some row =>
    simp only [hrow] at h
    exact hall row (List.getElem?_mem hrow) v (List.getElem?_mem h)

/-- The two possible outcomes of `application_on_new_scan`: nothing, or one
`led_update_light` call whose arguments are the four reads of one table row. -/
theorem new_scan_cases (x : Nat) (s : AppState) :
    application_on_new_scan x s = some (s, []) ∨
    ∃ i r g bl w, i < 12 ∧
      pwm_at i 0 = some r ∧ pwm_at i 1 = some g ∧
      pwm_at i 2 = some bl ∧ pwm_at i 3 = some w ∧
      application_on_new_scan x s = some (s, [Effect.led_update_light r g bl w]) := by
  unfold application_on_new_scan
  by_cases hcat : 0x10 = x &&& 0xF0
  · by_cases hi : (x &&& 0x0F) % 256 < 12
    · obtain ⟨r0, h0⟩ := pwm_at_isSome _ 0 hi (by decide)
      obtain ⟨r1, h1⟩ := pwm_at_isSome _ 1 hi (by decide)
      obtain ⟨r2, h2⟩ := pwm_at_isSome _ 2 hi (by decide)
      obtain ⟨r3, h3⟩ := pwm_at_isSome _ 3 hi (by decide)
      right
      refine ⟨_, r0, r1, r2, r3, hi, h0, h1, h2, h3, ?_⟩
      simp only [hcat, NUM_OF_PWM_VALUES_GROUPS, hi, h0, h1, h2, h3, if_true]
    · left
      simp only [hcat, NUM_OF_PWM_VALUES_GROUPS, hi, if_true, if_false]
  · left
    simp only [hcat, if_false]

/-- Whenever `application_init` returns, the state is unchanged and the trace
is the two opening calls, a block of `memory_is_busy` polls, and the three
closing calls. -/
theorem init_trace_shape (mem_ok : Bool) (busy : Nat → Bool) (fuel : Nat)
    (s : AppState) (t : AppState × List Effect)
    (h : application_init mem_ok busy fuel s = some t) :
    t.1 = s ∧ ∃ polls : List Effect,
      (∀ e ∈ polls, e.isBusyPoll = true) ∧
      t.2 = [Effect.ble_man_init, Effect.memory_init default_values mem_ok] ++ polls ++
          [Effect.led_light_init, Effect.ble_man_adv_start, Effect.ble_man_scan_start] := by
  unfold application_init at h
  cases mem_ok with
  | false =>
    simp only [Bool.true_eq_false, if_false, Option.some.injEq] at h
    subst h
    exact ⟨rfl, [], by simp, rfl⟩
  | true =>
    simp only [if_true] at h
    cases hw : wait_not_busy busy 0 fuel with
    | none => simp [hw] at h
    | some polls =>
      simp only [hw, Option.some.injEq] at h
      subst h
      exact ⟨rfl, polls, wait_not_busy_polls busy fuel 0 polls hw, rfl⟩

set_option maxRecDepth 100000 in
/-- Over all 256 bytes and both states: the number of `led_update_light` calls
made by `application_on_new_scan` is 1 on `0x10 .. 0x1B` and 0 elsewhere. -/
theorem led_call_count (s : AppState) (c : Nat) (hc : c < 256) :
    (application_on_new_scan c s).map (fun t => t.2.countP Effect.isLedUpdate)
      = some (if 0x10 ≤ c ∧ c ≤ 0x1B then 1 else 0) ∧
    led_call_made c s = decide (0x10 ≤ c ∧ c ≤ 0x1B) := by
  have key : ∀ f : Bool, ∀ d, d < 256 →
      ((application_on_new_scan d { adv_timeout := f }).map
          (fun t => t.2.countP Effect.isLedUpdate)
        = some (if 0x10 ≤ d ∧ d ≤ 0x1B then 1 else 0) ∧
      led_call_made d { adv_timeout := f } = decide (0x10 ≤ d ∧ d ≤ 0x1B)) := by
    decide
  cases s with
  | mk f => exact key f c hc

set_option maxRecDepth 100000 in
/-- In either state exactly 12 of the 256 bytes make a `led_update_light`
call. -/
theorem led_call_bytes (s : AppState) :
    ((List.range 256).filter (fun c => led_call_made c s)).length = 12 := by
  cases s with
  | mk f => cases f <;> decide

/-! ## Advertising decoder -/

/-- C1: for every byte `b` whose high nibble is `0x1` and whose low nibble is
below 12, `application_on_new_scan b` performs exactly one effect, the call
`led_update_light` with the four entries `pwm_values[b & 0x0F][0..3]` in order,
and leaves the state as it was. -/
theorem new_scan_applies_preset (b : Nat) (s : AppState) (_hb : b < 256)
    (hcat : b &&& 0xF0 = 0x10) (hidx : b &&& 0x0F < 12) :
    ∃ r g bl w,
      pwm_at (b &&& 0x0F) 0 = some r ∧ pwm_at (b &&& 0x0F) 1 = some g ∧
      pwm_at (b &&& 0x0F) 2 = some bl ∧ pwm_at (b &&& 0x0F) 3 = some w ∧
      application_on_new_scan b s = some (s, [Effect.led_update_light r g bl w]) := by
  obtain ⟨r, h0⟩ := pwm_at_isSome (b &&& 0x0F) 0 hidx (by decide)
  obtain ⟨g, h1⟩ := pwm_at_isSome (b &&& 0x0F) 1 hidx (by decide)
  obtain ⟨bl, h2⟩ := pwm_at_isSome (b &&& 0x0F) 2 hidx (by decide)
  obtain ⟨w, h3⟩ := pwm_at_isSome (b &&& 0x0F) 3 hidx (by decide)
  exact ⟨r, g, bl, w, h0, h1, h2, h3, new_scan_valid_index b s r g bl w hcat hidx h0 h1 h2 h3⟩

/-- Witness for C1 at the byte `0x18` (row 8, the "high" preset). -/
theorem new_scan_applies_preset_witness :
    (0x18 < 256 ∧ 0x18 &&& 0xF0 = 0x10 ∧ 0x18 &&& 0x0F < 12) ∧
    ∃ r g bl w,
      pwm_at (0x18 &&& 0x0F) 0 = some r ∧ pwm_at (0x18 &&& 0x0F) 1 = some g ∧
      pwm_at (0x18 &&& 0x0F) 2 = some bl ∧ pwm_at (0x18 &&& 0x0F) 3 = some w ∧
      application_on_new_scan 0x18 AppState.initial
        = some (AppState.initial, [Effect.led_update_light r g bl w]) :=
  ⟨by decide, new_scan_applies_preset 0x18 AppState.initial (by decide) (by decide) (by decide)⟩

/-- C2: for every byte `b` whose high nibble is not `0x1`,
`application_on_new_scan b` performs no effect at all (so no `led_update_light`
call and no other collaborator call) and returns the state unchanged. -/
theorem new_scan_ignores_other_category (b : Nat) (s : AppState) (_hb : b < 256)
    (hcat : b &&& 0xF0 ≠ 0x10) :
    application_on_new_scan b s = some (s, []) := by
  have hne : ¬ (0x10 = b &&& 0xF0) := fun h => hcat h.symm
  unfold application_on_new_scan
  simp only [hne, if_false]

/-- Witness for C2 at the byte `0x05`. -/
theorem new_scan_ignores_other_category_witness :
    (0x05 < 256 ∧ 0x05 &&& 0xF0 ≠ 0x10) ∧
    application_on_new_scan 0x05 AppState.initial = some (AppState.initial, []) :=
  ⟨by decide, new_scan_ignores_other_category 0x05 AppState.initial (by decide) (by decide)⟩

/-- C3: for every byte `b` whose high nibble is `0x1` and whose low nibble is 12
or more, `application_on_new_scan b` performs no effect at all; these bytes are
exactly `0x1C .. 0x1F`. -/
theorem new_scan_drops_invalid_index (b : Nat) (s : AppState) (hb : b < 256)
    (hcat : b &&& 0xF0 = 0x10) (hidx : 12 ≤ b &&& 0x0F) :
    (0x1C ≤ b ∧ b ≤ 0x1F) ∧ application_on_new_scan b s = some (s, []) := by
  refine ⟨(out_of_range_bytes b hb).mp ⟨hcat, hidx⟩, ?_⟩
  have hlt : b &&& 0x0F < 256 := by
    have := (high_nibble_one b hb hcat).2.2
    omega
  have hmod : (b &&& 0x0F) % 256 = b &&& 0x0F := Nat.mod_eq_of_lt hlt
  have hnot : ¬ (b &&& 0x0F < 12) := Nat.not_lt.mpr hidx
  unfold application_on_new_scan
  simp only [hcat, hmod, NUM_OF_PWM_VALUES_GROUPS, hnot, if_true, if_false]

/-- Witness for C3 at the byte `0x1C`. -/
theorem new_scan_drops_invalid_index_witness :
    (0x1C < 256 ∧ 0x1C &&& 0xF0 = 0x10 ∧ 12 ≤ 0x1C &&& 0x0F) ∧
    (0x1C ≤ 0x1C ∧ 0x1C ≤ 0x1F) ∧
    application_on_new_scan 0x1C AppState.initial = some (AppState.initial, []) :=
  ⟨by decide, new_scan_drops_invalid_index 0x1C AppState.initial (by decide) (by decide) (by decide)⟩

/-! ## Special-operation handler -/

/-- C4: whatever the sentinel `BOOTLOADER_DFU_START` and whatever the state,
`app_on_special_op 0xA9` performs exactly two effects, the write of the sentinel
to `GPREGRET` followed by `NVIC_SystemReset`, and does not change the
`adv_timeout` flag. -/
theorem special_op_password (BOOTLOADER_DFU_START : Nat) (s : AppState) :
    app_on_special_op BOOTLOADER_DFU_START 0xA9 s
      = (s, [Effect.gpregret_write BOOTLOADER_DFU_START, Effect.NVIC_SystemReset]) := by
  simp [app_on_special_op, DFU_UPGRADE_CHAR_PASSWORD]

/-- C5: for every byte `x` other than `0xA9`, `app_on_special_op x` performs no
effect and returns the state unchanged; and for every byte, a register write
occurs iff `x = 0xA9`, and a reset occurs iff `x = 0xA9`. -/
theorem special_op_other_byte (BOOTLOADER_DFU_START : Nat) (x : Nat) (s : AppState)
    (_hx : x < 256) :
    (x ≠ 0xA9 → app_on_special_op BOOTLOADER_DFU_START x s = (s, [])) ∧
    ((∃ v, Effect.gpregret_write v ∈ (app_on_special_op BOOTLOADER_DFU_START x s).2)
      ↔ x = 0xA9) ∧
    (Effect.NVIC_SystemReset ∈ (app_on_special_op BOOTLOADER_DFU_START x s).2
      ↔ x = 0xA9) := by
  by_cases h : x = 0xA9
  · subst h
    simp [app_on_special_op, DFU_UPGRADE_CHAR_PASSWORD]
  · simp [app_on_special_op, DFU_UPGRADE_CHAR_PASSWORD, h]

/-- Witness for C5 at the byte `0x05`. -/
theorem special_op_other_byte_witness :
    0x05 < 256 ∧ app_on_special_op 0xB1 0x05 AppState.initial = (AppState.initial, []) :=
  ⟨by decide,
    (special_op_other_byte 0xB1 0x05 AppState.initial (by decide)).1 (by decide)⟩

/-! ## Lifecycle controller: the timeout flag -/

/-- C6 (as stated, refuted): from the initial state, the `application_run` that
follows `app_on_adv_timeout` does not contain exactly one `ble_man_scan_start`
call. -/
theorem run_after_timeout_not_one_scan_start :
    ¬ ((application_run (app_on_adv_timeout AppState.initial).1).2.countP
        Effect.isScanStart = 1) := by
  decide

/-- C6 (amended): in every state, the `application_run` that follows
`app_on_adv_timeout` performs no effect at all, so it contains no
`ble_man_scan_start` call: the run step consumes the timeout without re-arming
scanning. -/
theorem run_after_timeout_no_scan_start (s : AppState) :
    (application_run (app_on_adv_timeout s).1).2 = [] ∧
    (application_run (app_on_adv_timeout s).1).2.countP Effect.isScanStart = 0 := by
  simp [application_run, app_on_adv_timeout]

/-- C7: in every state, after `app_on_adv_timeout` followed by `application_run`
the flag is false; a second `application_run` performs no effect and leaves the
flag false; and `application_run` on any state whose flag is false performs no
effect and leaves the state as it is. -/
theorem run_clears_flag (s : AppState) :
    (application_run (app_on_adv_timeout s).1).1.adv_timeout = false ∧
    application_run (application_run (app_on_adv_timeout s).1).1
      = ({ adv_timeout := false }, []) ∧
    application_run { adv_timeout := false } = ({ adv_timeout := false }, []) := by
  simp [application_run, app_on_adv_timeout]

/-! ## Lifecycle controller: start-up -/

/-- C8: when `memory_init(default_values)` returns false, `application_init`
returns (whatever the fuel and whatever `memory_is_busy` would answer) and its
effects are exactly `ble_man_init`, `memory_init`, `led_light_init`,
`ble_man_adv_start`, `ble_man_scan_start`, in that order: no `memory_is_busy`
poll occurs. -/
theorem init_storage_failure (busy : Nat → Bool) (fuel : Nat) (s : AppState) :
    application_init false busy fuel s
      = some (s, [Effect.ble_man_init, Effect.memory_init default_values false,
          Effect.led_light_init, Effect.ble_man_adv_start, Effect.ble_man_scan_start]) := by
  simp [application_init]

/-- C9: whenever `application_init` returns, the state is unchanged, its trace
restricted to the five initialisation/start calls is `ble_man_init`,
`memory_init(default_values)`, `led_light_init`, `ble_man_adv_start`,
`ble_man_scan_start` in that order, and the whole trace is those calls with a
block of `memory_is_busy` polls (and nothing else) between `memory_init` and
`led_light_init`. -/
theorem init_call_order (mem_ok : Bool) (busy : Nat → Bool) (fuel : Nat)
    (s : AppState) (r : AppState × List Effect)
    (h : application_init mem_ok busy fuel s = some r) :
    r.1 = s ∧
    r.2.filter Effect.isInitCall
      = [Effect.ble_man_init, Effect.memory_init default_values mem_ok,
          Effect.led_light_init, Effect.ble_man_adv_start, Effect.ble_man_scan_start] ∧
    ∃ polls : List Effect,
      (∀ e ∈ polls, e.isBusyPoll = true) ∧
      r.2 = [Effect.ble_man_init, Effect.memory_init default_values mem_ok] ++ polls ++
          [Effect.led_light_init, Effect.ble_man_adv_start, Effect.ble_man_scan_start] := by
  have shape : ∀ polls : List Effect, (∀ e ∈ polls, e.isBusyPoll = true) →
      (([Effect.ble_man_init, Effect.memory_init default_values mem_ok] ++ polls ++
          [Effect.led_light_init, Effect.ble_man_adv_start, Effect.ble_man_scan_start]).filter
        Effect.isInitCall)
      = [Effect.ble_man_init, Effect.memory_init default_values mem_ok,
          Effect.led_light_init, Effect.ble_man_adv_start, Effect.ble_man_scan_start] := by
    intro polls hp
    have hnil : polls.filter Effect.isInitCall = [] :=
      List.filter_eq_nil_iff.mpr (fun e he => by
        simp [isInitCall_of_isBusyPoll e (hp e he)])
    simp [List.filter_append, hnil, Effect.isInitCall]
  unfold application_init at h
  cases mem_ok with
  | false =>
    simp only [Bool.true_eq_false, if_false, Option.some.injEq] at h
    subst h
    exact ⟨rfl, shape [] (by simp), [], by simp, rfl⟩
  | true =>
    simp only [if_true] at h
    cases hw : wait_not_busy busy 0 fuel with
    | none => simp [hw] at h
    | some polls =>
      simp only [hw, Option.some.injEq] at h
      subst h
      have hp := wait_not_busy_polls busy fuel 0 polls hw
      exact ⟨rfl, shape polls hp, polls, hp, rfl⟩

/-- Witness for C9: storage initialises, answers busy twice, then not busy. -/
theorem init_call_order_witness :
    ∃ r, application_init true (fun k => decide (k < 2)) 5 AppState.initial = some r ∧
      r.2.filter Effect.isInitCall
        = [Effect.ble_man_init, Effect.memory_init default_values true,
            Effect.led_light_init, Effect.ble_man_adv_start, Effect.ble_man_scan_start] :=
  ⟨(AppState.initial, [Effect.ble_man_init, Effect.memory_init default_values true,
      Effect.memory_is_busy true, Effect.memory_is_busy true, Effect.memory_is_busy false,
      Effect.led_light_init, Effect.ble_man_adv_start, Effect.ble_man_scan_start]),
    by decide,
    (init_call_order true (fun k => decide (k < 2)) 5 AppState.initial _ (by decide)).2.1⟩

/-- C10: when `memory_init` returns true and `memory_is_busy` answers true to
polls `0 .. n-1` and false to poll `n`, `application_init` finishes exactly when
more than `n` polls are allowed, and then its trace is `ble_man_init`,
`memory_init`, `n` busy polls, one not-busy poll, and only then `led_light_init`,
`ble_man_adv_start`, `ble_man_scan_start`: `n + 1` polls in all.  The other
paths have no loop: with `memory_init` false `application_init` finishes on zero
fuel, and every other operation is defined without fuel and performs at most
two effects. -/
theorem init_busy_wait_bounded (busy : Nat → Bool) (n : Nat) (s : AppState)
    (hbusy : ∀ k, k < n → busy k = true) (hfree : busy n = false) :
    (∀ fuel, application_init true busy fuel s =
      if n < fuel then
        some (s, [Effect.ble_man_init, Effect.memory_init default_values true] ++
          (List.replicate n (Effect.memory_is_busy true) ++ [Effect.memory_is_busy false]) ++
          [Effect.led_light_init, Effect.ble_man_adv_start, Effect.ble_man_scan_start])
      else none) ∧
    (∀ fuel r, application_init true busy fuel s = some r →
      r.2.countP Effect.isBusyPoll = n + 1) ∧
    (∃ r, application_init false busy 0 s = some r) ∧
    (∀ (s' : AppState) (v x : Nat),
      (app_on_adv_timeout s').2.length = 0 ∧
      (app_on_special_op v x s').2.length ≤ 2 ∧
      (∃ r, application_on_new_scan x s' = some r ∧ r.2.length ≤ 1) ∧
      (application_on_conn s').2.length = 0 ∧
      (application_on_disconn s').2.length = 1 ∧
      (application_run s').2.length = 0) := by
  have hw : ∀ fuel, wait_not_busy busy 0 fuel =
      if n < fuel then
        some (List.replicate n (Effect.memory_is_busy true) ++ [Effect.memory_is_busy false])
      else none :=
    fun fuel => wait_not_busy_eq busy n 0 fuel
      (fun j hj => by simpa using hbusy j hj) (by simpa using hfree)
  have hinit : ∀ fuel, application_init true busy fuel s =
      if n < fuel then
        some (s, [Effect.ble_man_init, Effect.memory_init default_values true] ++
          (List.replicate n (Effect.memory_is_busy true) ++ [Effect.memory_is_busy false]) ++
          [Effect.led_light_init, Effect.ble_man_adv_start, Effect.ble_man_scan_start])
      else none := by
    intro fuel
    unfold application_init
    simp only [if_true, hw fuel]
    by_cases hnf : n < fuel
    · simp only [hnf, if_true]
    · simp only [hnf, if_false]
  refine ⟨hinit, ?_, ?_, ?_⟩
  · intro fuel r hr
    rw [hinit fuel] at hr
    by_cases hnf : n < fuel
    · simp only [hnf, if_true, Option.some.injEq] at hr
      subst hr
      simp [List.countP_append, List.countP_replicate, Effect.isBusyPoll, List.countP_cons]
    · simp [hnf] at hr
  · exact ⟨(s, [Effect.ble_man_init, Effect.memory_init default_values false,
      Effect.led_light_init, Effect.ble_man_adv_start, Effect.ble_man_scan_start]),
      by simp [application_init]⟩
  · intro s' v x
    refine ⟨rfl, ?_, ?_, rfl, rfl, ?_⟩
    · unfold app_on_special_op
      split <;> simp
    · obtain ⟨r, hr, _, hlen⟩ := new_scan_returns x s'
      exact ⟨r, hr, hlen⟩
    · unfold application_run
      split <;> rfl

/-- Witness for C10: two busy answers, then not busy; three polls in all. -/
theorem init_busy_wait_bounded_witness :
    application_init true (fun k => decide (k < 2)) 3 AppState.initial
      = some (AppState.initial,
          [Effect.ble_man_init, Effect.memory_init default_values true,
            Effect.memory_is_busy true, Effect.memory_is_busy true,
            Effect.memory_is_busy false,
            Effect.led_light_init, Effect.ble_man_adv_start, Effect.ble_man_scan_start]) ∧
    application_init true (fun k => decide (k < 2)) 2 AppState.initial = none :=
  have h := (init_busy_wait_bounded (fun k => decide (k < 2)) 2 AppState.initial
    (by decide) (by decide)).1
  ⟨(h 3).trans (by decide), (h 2).trans (by decide)⟩

/-! ## Connection events -/

/-- C11: in every state `application_on_disconn` performs exactly one effect,
the call `ble_man_adv_start`, and `application_on_conn` performs no effect;
neither changes the state. -/
theorem conn_disconn_effects (s : AppState) :
    application_on_disconn s = (s, [Effect.ble_man_adv_start]) ∧
    application_on_conn s = (s, []) :=
  ⟨rfl, rfl⟩

/-! ## Preset table -/

/-- C12: `pwm_values` has 12 rows of 4 values each and agrees row by row with
the reference table; a row is all channels off exactly at the indices 2, 3, 6,
7, 9, 10 and 11; and in every state the byte `0x18` yields
`led_update_light(100,100,100,100)` and the byte `0x19` yields
`led_update_light(0,0,0,0)`. -/
theorem pwm_values_reference (s : AppState) :
    pwm_values.length = 12 ∧
    pwm_values.map List.length = List.replicate 12 4 ∧
    (∀ i, pwm_values[i]? = reference_preset i) ∧
    (∀ i, pwm_values[i]? = some [0, 0, 0, 0] ↔ i ∈ [2, 3, 6, 7, 9, 10, 11]) ∧
    application_on_new_scan 0x18 s = some (s, [Effect.led_update_light 100 100 100 100]) ∧
    application_on_new_scan 0x19 s = some (s, [Effect.led_update_light 0 0 0 0]) := by
  have href : ∀ i, pwm_values[i]? = reference_preset i := by
    intro i
    by_cases hi : i < 12
    · interval_cases i <;> rfl
    · have h12 : 12 ≤ i := Nat.le_of_not_lt hi
      obtain ⟨j, rfl⟩ : ∃ j, i = j + 12 := ⟨i - 12, by omega⟩
      rfl
  refine ⟨rfl, rfl, href, ?_, ?_, ?_⟩
  · intro i
    rw [href i]
    by_cases hi : i < 12
    · interval_cases i <;> simp [reference_preset]
    · obtain ⟨j, rfl⟩ : ∃ j, i = j + 12 := ⟨i - 12, by omega⟩
      simp [reference_preset]
  · exact new_scan_valid_index 0x18 s 100 100 100 100 (by decide) (by decide) rfl rfl rfl rfl
  · exact new_scan_valid_index 0x19 s 0 0 0 0 (by decide) (by decide) rfl rfl rfl rfl

/-- C13: every entry of `pwm_values` is at most 100 (and, being a natural
number, at least 0); and for every byte `b`, `application_on_new_scan b` returns
and each `led_update_light` call in its trace has all four arguments at most
100. -/
theorem led_arguments_in_range (b : Nat) (s : AppState) (_hb : b < 256) :
    (∀ row ∈ pwm_values, ∀ v ∈ row, 0 ≤ v ∧ v ≤ 100) ∧
    ∃ t, application_on_new_scan b s = some t ∧
      ∀ r g bl w, Effect.led_update_light r g bl w ∈ t.2 →
        r ≤ 100 ∧ g ≤ 100 ∧ bl ≤ 100 ∧ w ≤ 100 := by
  refine ⟨by decide, ?_⟩
  rcases new_scan_cases b s with h | ⟨i, r0, r1, r2, r3, _, h0, h1, h2, h3, h⟩
  · exact ⟨_, h, by simp⟩
  · refine ⟨_, h, ?_⟩
    intro r g bl w hmem
    simp only [List.mem_singleton, Effect.led_update_light.injEq] at hmem
    obtain ⟨rfl, rfl, rfl, rfl⟩ := hmem
    exact ⟨pwm_at_le i 0 _ h0, pwm_at_le i 1 _ h1, pwm_at_le i 2 _ h2, pwm_at_le i 3 _ h3⟩

/-- Witness for C13 at the byte `0x18`, whose call carries the largest table
entries. -/
theorem led_arguments_in_range_witness :
    0x18 < 256 ∧
    Effect.led_update_light 100 100 100 100 ∈
      [Effect.led_update_light 100 100 100 100] ∧
    ∃ t, application_on_new_scan 0x18 AppState.initial = some t ∧
      ∀ r g bl w, Effect.led_update_light r g bl w ∈ t.2 →
        r ≤ 100 ∧ g ≤ 100 ∧ bl ≤ 100 ∧ w ≤ 100 :=
  ⟨by decide, by simp, (led_arguments_in_range 0x18 AppState.initial (by decide)).2⟩

/-! ## Default configuration record -/

/-- C14: `default_values` is 8 bytes long, byte 0 is 10 (`DEF_FADE_PWM_PERCENT`)
and bytes 1 to 7 are `0xFF`; and whenever `application_init` returns, every
`memory_init` call in its trace carries exactly this record as seed, and there
is such a call. -/
theorem default_values_record (mem_ok : Bool) (busy : Nat → Bool) (fuel : Nat)
    (s : AppState) (t : AppState × List Effect)
    (h : application_init mem_ok busy fuel s = some t) :
    default_values.length = 8 ∧
    default_values = [10, 0xFF, 0xFF, 0xFF, 0xFF, 0xFF, 0xFF, 0xFF] ∧
    default_values[0]? = some DEF_FADE_PWM_PERCENT ∧
    Effect.memory_init default_values mem_ok ∈ t.2 ∧
    ∀ seed ret, Effect.memory_init seed ret ∈ t.2 → seed = default_values := by
  obtain ⟨_, polls, hp, ht⟩ := init_trace_shape mem_ok busy fuel s t h
  refine ⟨rfl, rfl, rfl, ?_, ?_⟩
  · rw [ht]
    simp
  · intro seed ret hmem
    rw [ht] at hmem
    simp only [List.append_assoc, List.mem_append, List.mem_cons, List.mem_singleton,
      Effect.memory_init.injEq, List.mem_nil_iff, or_false, false_or, reduceCtorEq] at hmem
    rcases hmem with ⟨hseed, _⟩ | hmem
    · exact hseed
    · have := hp _ hmem
      simp [Effect.isBusyPoll] at this

/-- Witness for C14: storage initialisation fails, so no poll is made. -/
theorem default_values_record_witness :
    application_init false (fun _ => true) 0 AppState.initial
      = some (AppState.initial,
          [Effect.ble_man_init, Effect.memory_init default_values false,
            Effect.led_light_init, Effect.ble_man_adv_start, Effect.ble_man_scan_start]) ∧
    default_values.length = 8 :=
  ⟨by decide,
    (default_values_record false (fun _ => true) 0 AppState.initial
      (AppState.initial,
        [Effect.ble_man_init, Effect.memory_init default_values false,
          Effect.led_light_init, Effect.ble_man_adv_start, Effect.ble_man_scan_start])
      (by decide)).1⟩

/-! ## Frame of the timeout flag -/

/-- C15: for every state, input byte, sentinel and storage outcome,
`application_on_new_scan`, `app_on_special_op`, `application_on_conn`,
`application_on_disconn` and `application_init` (whenever it returns) hand back
the state they were given; `app_on_adv_timeout` and `application_run` are
writers of the flag (each changes it in some state); and the state holds
nothing but the flag, so two states with the same flag are equal. -/
theorem flag_frame (s : AppState) (x v : Nat) (mem_ok : Bool) (busy : Nat → Bool)
    (fuel : Nat) (_hx : x < 256) :
    (∃ t, application_on_new_scan x s = some t ∧ t.1 = s) ∧
    (app_on_special_op v x s).1 = s ∧
    (application_on_conn s).1 = s ∧
    (application_on_disconn s).1 = s ∧
    (∀ t, application_init mem_ok busy fuel s = some t → t.1 = s) ∧
    (app_on_adv_timeout { adv_timeout := false }).1 ≠ { adv_timeout := false } ∧
    (application_run { adv_timeout := true }).1 ≠ { adv_timeout := true } ∧
    (∀ s1 s2 : AppState, s1.adv_timeout = s2.adv_timeout → s1 = s2) := by
  refine ⟨?_, ?_, rfl, rfl, ?_, by decide, by decide, ?_⟩
  · obtain ⟨t, ht, hst, _⟩ := new_scan_returns x s
    exact ⟨t, ht, hst⟩
  · unfold app_on_special_op
    split <;> rfl
  · intro t ht
    exact (init_trace_shape mem_ok busy fuel s t ht).1
  · intro s1 s2 h
    cases s1
    cases s2
    simp only [AppState.mk.injEq]
    exact h

/-- Witness for C15: the byte `0x18`, the password byte on the special-op path,
and a start-up whose storage initialisation fails, all from a state whose flag
is set. -/
theorem flag_frame_witness :
    0xA9 < 256 ∧
    application_init false (fun _ => true) 0 { adv_timeout := true }
      = some ({ adv_timeout := true },
          [Effect.ble_man_init, Effect.memory_init default_values false,
            Effect.led_light_init, Effect.ble_man_adv_start, Effect.ble_man_scan_start]) ∧
    (({ adv_timeout := true } : AppState),
        [Effect.ble_man_init, Effect.memory_init default_values false,
          Effect.led_light_init, Effect.ble_man_adv_start, Effect.ble_man_scan_start]).1
      = { adv_timeout := true } ∧
    (app_on_special_op 0xB1 0xA9 { adv_timeout := true }).1 = { adv_timeout := true } ∧
    ({ adv_timeout := true } : AppState) = { adv_timeout := true } :=
  have h := flag_frame { adv_timeout := true } 0xA9 0xB1 false (fun _ => true) 0 (by decide)
  ⟨by decide, by decide, h.2.2.2.2.1 _ (by decide), h.2.1, h.2.2.2.2.2.2.2 _ _ rfl⟩

/-! ## Composition of the preset table -/

/-- C16 (as stated, refuted): the number of row indices of `pwm_values` outside
the six ramp indices is not four. -/
theorem further_indices_not_four : ¬ (further_indices.length = 4) := by
  decide

/-- C16 (amended): the six ramp rows are the uniform presets 10, 25, 50, 75 and
100 percent (rows 0, 1, 4, 5, 8) and one off row (row 9); the row indices
outside the ramp are exactly the six indices 2, 3, 6, 7, 10 and 11, and each of
them holds `(0,0,0,0)`. -/
theorem further_indices_six :
    ramp_indices.map (fun i => pwm_values[i]?)
      = [some [10, 10, 10, 10], some [25, 25, 25, 25], some [50, 50, 50, 50],
          some [75, 75, 75, 75], some [100, 100, 100, 100], some [0, 0, 0, 0]] ∧
    further_indices = [2, 3, 6, 7, 10, 11] ∧
    further_indices.length = 6 ∧
    ramp_indices.length + further_indices.length = pwm_values.length ∧
    further_indices.map (fun i => pwm_values[i]?)
      = List.replicate 6 (some [0, 0, 0, 0]) := by
  decide

/-! ## Which bytes change the light -/

/-- C18: for every byte `b`, `application_on_new_scan b` returns, its trace
contains a `led_update_light` call (exactly one) iff `0x10 ≤ b ≤ 0x1B`, it never
contains more than one, and exactly 12 of the 256 bytes produce a call. -/
theorem led_call_iff_in_range (b : Nat) (s : AppState) (hb : b < 256) :
    (∃ t, application_on_new_scan b s = some t ∧
      (t.2.countP Effect.isLedUpdate = 1 ↔ (0x10 ≤ b ∧ b ≤ 0x1B)) ∧
      t.2.countP Effect.isLedUpdate ≤ 1) ∧
    (led_call_made b s = true ↔ (0x10 ≤ b ∧ b ≤ 0x1B)) ∧
    ((List.range 256).filter (fun c => led_call_made c s)).length = 12 := by
  obtain ⟨hcount, hmade⟩ := led_call_count s b hb
  refine ⟨?_, ?_, led_call_bytes s⟩
  · obtain ⟨t, ht, _, _⟩ := new_scan_returns b s
    rw [ht] at hcount
    simp only [Option.map_some', Option.some.injEq] at hcount
    refine ⟨t, ht, ?_, ?_⟩
    · rw [hcount]
      by_cases hr : 0x10 ≤ b ∧ b ≤ 0x1B
      · simp [hr]
      · simp [hr]
    · rw [hcount]
      split <;> omega
  · rw [hmade]
    simp

/-- Witness for C18 at the byte `0x1B`, the last one that makes a call. -/
theorem led_call_iff_in_range_witness :
    0x1B < 256 ∧ led_call_made 0x1B AppState.initial = true ∧
    led_call_made 0x1C AppState.initial = false :=
  ⟨by decide,
    (led_call_iff_in_range 0x1B AppState.initial (by decide)).2.1.mpr (by decide),
    by decide⟩

/-! ## Bounds of the table access -/

/-- C19: the table read `pwm_values[i][k]` succeeds exactly when `i < 12` and
`k < 4`, and for every input `application_on_new_scan` returns a result: the
branch taken on an out-of-bounds read is never reached. -/
theorem table_access_in_bounds (b : Nat) (s : AppState) :
    (∀ i k, (pwm_at i k).isSome = true ↔ (i < NUM_OF_PWM_VALUES_GROUPS ∧ k < 4)) ∧
    application_on_new_scan b s ≠ none ∧
    ∃ t, application_on_new_scan b s = some t := by
  obtain ⟨t, ht, _, _⟩ := new_scan_returns b s
  refine ⟨?_, by simp [ht], t, ht⟩
  intro i k
  constructor
  · intro h
    by_contra hcon
    have hbad : pwm_at i k = none := by
      unfold pwm_at
      by_cases hi : i < 12
      · have hk : 4 ≤ k := by
          simp only [NUM_OF_PWM_VALUES_GROUPS] at hcon
          omega
        interval_cases i <;> simp [pwm_values, hk]
      · have hnone : pwm_values[i]? = none :=
          List.getElem?_eq_none (by simp [pwm_values]; omega)
        simp [hnone]
    simp [hbad] at h
  · rintro ⟨hi, hk⟩
    obtain ⟨v, hv⟩ := pwm_at_isSome i k hi hk
    simp [hv]

/-! ## Coalescing of timeout notifications -/

/-- C20: for every `n ≥ 1`, `n` consecutive `app_on_adv_timeout` calls leave the
same state as one call, with the flag set; `application_run` twice leaves the
same state as once, with the flag clear; and after a burst of `n` timeouts one
`application_run` clears the flag and the next one finds nothing to do. -/
theorem timeouts_coalesce (n : Nat) (s : AppState) (hn : 1 ≤ n) :
    adv_timeout_burst n s = (app_on_adv_timeout s).1 ∧
    (adv_timeout_burst n s).adv_timeout = true ∧
    (application_run (application_run s).1).1 = (application_run s).1 ∧
    (application_run s).1.adv_timeout = false ∧
    (application_run (adv_timeout_burst n s)).1 = { adv_timeout := false } ∧
    application_run (application_run (adv_timeout_burst n s)).1
      = ({ adv_timeout := false }, []) := by
  have hburst : adv_timeout_burst n s = { adv_timeout := true } := by
    obtain ⟨m, rfl⟩ : ∃ m, n = m + 1 := ⟨n - 1, by omega⟩
    rfl
  have hrun : (application_run s).1 = { adv_timeout := false } := by
    cases s with
    | mk f => cases f <;> rfl
  refine ⟨by rw [hburst]; rfl, by rw [hburst], ?_, by rw [hrun], by rw [hburst]; rfl,
    by rw [hburst]; rfl⟩
  rw [hrun]
  rfl

/-- Witness for C20: a burst of three timeouts from the initial state. -/
theorem timeouts_coalesce_witness :
    1 ≤ 3 ∧ adv_timeout_burst 3 AppState.initial = (app_on_adv_timeout AppState.initial).1 :=
  ⟨by decide, (timeouts_coalesce 3 AppState.initial (by decide)).1⟩

end Application
